import Mathlib

/-!
# Verification of the OneTrainerWeb orchestration core

A shallow embedding of the configuration store (`ConfigService` plus the
underlying `BaseConfig`-style serialization engine), the training lifecycle
controller (`TrainerService`), the WebSocket fan-out layer
(`ConnectionManager` / `BroadcastBridge`) and the `SingletonMixin`, with
theorems settling the spec's claims about them.

The `BaseConfig` serialization engine (`TrainConfig.from_dict` / `to_dict` /
`default_values`, in `modules/util/config/`) is not part of the visible
sources; it is modelled from the spec (see the doc comments marked
`Modelled from the spec:`).  Everything in `web/backend` is translated
directly from the Python sources.
-/

namespace OneTrainerWeb

/-! ## Wire values

Modelled from the spec: the configuration wire format (spec section 6) is a
tree of primitive / enum / nested-object fields.  Floating-point values are
either finite (abstracted here as integers, since no claim depends on
fractional arithmetic) or one of the two infinities, which serialize as the
sentinel strings "Infinity" / "-Infinity". -/

inductive FloatV where
  | num (n : Int)
  | inf
  | negInf
deriving DecidableEq, Repr

inductive Value where
  | vnull
  | vbool (b : Bool)
  | vint (n : Int)
  | vstr (s : String)
  | vfloat (f : FloatV)
deriving DecidableEq, Repr

/-- A raw mapping (a JSON-style dict) is an association list from keys to
wire values; lookups return the first binding, like a Python dict that
never holds duplicate keys. -/
abbrev RawMap := List (String × Value)

/-- First-binding lookup in a raw mapping. -/
def findVal : RawMap → String → Option Value
  | [], _ => none
  | (k, v) :: rest, key => if k = key then some v else findVal rest key

/-- Lookup with a default value. -/
def findValD (d : RawMap) (key : String) (dflt : Value) : Value :=
  (findVal d key).getD dflt

/-- Python dict assignment `d[k] = v`: replace the first binding of `k`, or
append a new binding when `k` is absent. -/
def setKey : RawMap → String → Value → RawMap
  | [], key, v => [(key, v)]
  | (k, w) :: rest, key, v =>
      if k = key then (k, v) :: rest else (k, w) :: setKey rest key v

/-! ## Field schema and coercion

Modelled from the spec: each field has a name, a declared type, a nullable
flag and a compiled-in default (spec section 3, ConfigNode).  The default is
stored as a raw value and is *not* necessarily in coerced form — the spec
and the visible sources both document fields "whose compiled-in default has
a different representation than its coerced form" (e.g. a `str`-typed field
defaulting to the int `0`, see the comments in
`web/backend/services/config_service.py` lines 34-40). -/

inductive FieldType where
  | tBool
  | tInt
  | tStr
  | tFloat
  | tEnum (members : List String)
deriving DecidableEq, Repr

structure FieldSpec where
  name : String
  ftype : FieldType
  nullable : Bool
  default : Value
deriving DecidableEq, Repr

/-- Modelled from the spec: type coercion of a supplied wire value to a
field's declared type (spec section 4.1).  Integers coerce to strings and
floats; the infinity sentinel strings parse back to true infinities
(spec section 6); enum fields accept their symbolic member names; `null` is
accepted exactly for nullable fields.  Returns `none` on a coercion
failure (which `from_dict` swallows, keeping the current value). -/
def coerceValue (ft : FieldType) (nullable : Bool) (v : Value) : Option Value :=
  if v = .vnull then
    if nullable then some .vnull else none
  else
    match ft, v with
    | .tBool, .vbool b => some (.vbool b)
    | .tInt, .vint n => some (.vint n)
    | .tStr, .vstr s => some (.vstr s)
    | .tStr, .vint n => some (.vstr (toString n))
    | .tFloat, .vfloat fv => some (.vfloat fv)
    | .tFloat, .vint n => some (.vfloat (.num n))
    | .tFloat, .vstr s =>
        if s = "Infinity" then some (.vfloat .inf)
        else if s = "-Infinity" then some (.vfloat .negInf)
        else none
    | .tEnum ms, .vstr s => if ms.contains s then some (.vstr s) else none
    | _, _ => none

/-- Modelled from the spec: the wire representation a stored value is
emitted with (`to_dict`): infinities emit their sentinel strings, all other
values emit themselves (spec section 4.1, `serialize`). -/
def emitValue : Value → Value
  | .vfloat .inf => .vstr "Infinity"
  | .vfloat .negInf => .vstr "-Infinity"
  | v => v

/-- Render a value for a "Could not set <field> as <value>" message. -/
def showValue : Value → String
  | .vnull => "None"
  | .vbool b => toString b
  | .vint n => toString n
  | .vstr s => s
  | .vfloat (.num n) => toString n
  | .vfloat .inf => "inf"
  | .vfloat .negInf => "-inf"

/-! ## Schema, migrations and the from_dict / to_dict engine -/

/-- Modelled from the spec: a configuration schema is a flat list of typed
fields plus the contiguous migration chain (spec section 3); the current
schema version is the number of registered migrations.  Nested
sub-configurations are flattened into a single field list, which is faithful
for the claims at issue (the serialization rules recurse with unchanged
semantics). -/
structure Schema where
  fields : List FieldSpec
  migrations : List (RawMap → RawMap)

/-- The current schema version (`config_version`). -/
def currentVersion (S : Schema) : Nat := S.migrations.length

/-- The freshly-constructed default document (`default_values()`): every
field holds its compiled-in default, still in raw (possibly uncoerced)
representation. -/
def defaultDoc (S : Schema) : RawMap :=
  S.fields.map (fun f => (f.name, f.default))

/-- The schema version recorded in a raw mapping; a missing or non-integer
`__version` counts as 0. -/
def getVersion (d : RawMap) : Int :=
  match findVal d "__version" with
  | some (.vint n) => n
  | _ => 0

/-- Apply the registered migrations for versions `[v, currentVersion)`, in
order, each consuming the previous one's output (spec section 4.1). -/
def applyMigs (S : Schema) (v : Nat) (d : RawMap) : RawMap :=
  (S.migrations.drop v).foldl (fun acc m => m acc) d

/-- The value and optional error produced for one field when applying a raw
mapping `d` to the current document `cur`: a missing key keeps the current
value, a coercible value is overwritten with its coerced form, and a
coercion failure keeps the current value while recording a
"Could not set ... as ..." message. -/
def fieldUpdate (cur d : RawMap) (f : FieldSpec) : Value × Option String :=
  match findVal d f.name with
  | none => (findValD cur f.name f.default, none)
  | some w =>
    match coerceValue f.ftype f.nullable w with
    | some w' => (w', none)
    | none => (findValD cur f.name f.default,
               some ("Could not set " ++ f.name ++ " as " ++ showValue w))

/-- Modelled from the spec: `BaseConfig.from_dict` applied to the current
document `cur`.  Runs the migration chain from the mapping's recorded
version (spec section 4.1), then coerces every supplied field; unknown keys
are dropped silently; missing keys keep the current value; coercion
failures are swallowed, keeping the current value, and surface only as
printed "Could not set ..." messages, returned here as an explicit error
list (the visible `validate_config` recovers them by capturing stdout). -/
def fromDict (S : Schema) (cur d : RawMap) : RawMap × List String :=
  let d' := applyMigs S (getVersion d).toNat d
  (S.fields.map (fun f => (f.name, (fieldUpdate cur d' f).1)),
   S.fields.filterMap (fun f => (fieldUpdate cur d' f).2))

/-- Modelled from the spec: `to_dict` emits `__version` at the current
schema version followed by every field's stored value in wire
representation (spec section 4.1, `serialize`; the visible test
`test_default_has_version` pins the `__version` behavior). -/
def toDict (S : Schema) (doc : RawMap) : RawMap :=
  ("__version", .vint (currentVersion S)) ::
    S.fields.map (fun f => (f.name, emitValue (findValD doc f.name f.default)))

/-- Embeds `load` in the sense of claim C1: apply a raw mapping to a
freshly-constructed default configuration (`TrainConfig.default_values()`
followed by `from_dict`). -/
def loadDoc (S : Schema) (d : RawMap) : RawMap :=
  (fromDict S (defaultDoc S) d).1

/-- One serialize-after-load pass: `to_dict(from_dict(default, d))`. -/
def normalizePass (S : Schema) (d : RawMap) : RawMap :=
  toDict S (loadDoc S d)

/-! ## ConfigService (`web/backend/services/config_service.py`)

The canonical state of the service is its `TrainConfig` document; the
methods below translate the lock-protected bodies (the lock serializes the
calls; the embedding is the sequential semantics under that lock). -/

/-- Embeds `ConfigService.__init__`: construct the default config, then normalize
it through one `from_dict(to_dict())` cycle so `to_dict()` is idempotent
from the very first GET (config_service.py lines 32-41). -/
def configServiceInit (S : Schema) : RawMap :=
  (fromDict S (defaultDoc S) (toDict S (defaultDoc S))).1

/-- Embeds `ConfigService.get_config_dict`: serialize the current config. -/
def getConfigDict (S : Schema) (s : RawMap) : RawMap :=
  toDict S s

/-- Embeds `ConfigService.update_config` (config_service.py lines 52-73): inject
`__version` at the current schema version when the payload has none (so
migrations are skipped on sparse payloads), apply `from_dict` to the
current config, and return the new state together with its serialized
form. -/
def updateConfig (S : Schema) (s data : RawMap) : RawMap × RawMap :=
  let data' :=
    if findVal data "__version" = none then
      setKey data "__version" (.vint (currentVersion S))
    else data
  let s' := (fromDict S s data').1
  (s', toDict S s')

inductive ValidationResult where
  | valid
  | invalid (errors : List String)
deriving DecidableEq, Repr

/-- Embeds `ConfigService.validate_config` (config_service.py lines 211-264):
copy the payload, inject `__version` when absent, run `from_dict` on a
*fresh default* config (never on the canonical one) and report the
captured "Could not set ..." messages as errors.  Returns the (unchanged)
canonical state together with the result; the Python body contains no
assignment to `self.config`. -/
def validateConfig (S : Schema) (s data : RawMap) : RawMap × ValidationResult :=
  let validationData :=
    if findVal data "__version" = none then
      setKey data "__version" (.vint (currentVersion S))
    else data
  let errors := (fromDict S (defaultDoc S) validationData).2
  (s, if errors = [] then .valid else .invalid errors)

/-! ### Concrete demonstration schemas

`SPort` isolates the documented representation mismatch: a `str`-typed
field whose compiled-in default is the int `0` (the
`CloudSecretsConfig.port` quirk named in config_service.py lines 36-38 and
test_config_roundtrip.py lines 63-66).  `STrain` holds the `batch_size` /
`epochs` fields of the partial-update scenario.  `SMig` carries one
registered migration, which rewrites the `epochs` key (standing in for the
real migration chain, e.g. `migration_8`, which reads and rewrites keys of
the full document unconditionally — config_service.py lines 60-64). -/

def SPort : Schema :=
  { fields := [⟨"port", .tStr, false, .vint 0⟩], migrations := [] }

def STrain : Schema :=
  { fields := [⟨"batch_size", .tInt, false, .vint 4⟩,
               ⟨"epochs", .tInt, false, .vint 100⟩],
    migrations := [] }

def SMig : Schema :=
  { fields := [⟨"batch_size", .tInt, false, .vint 4⟩,
               ⟨"epochs", .tInt, false, .vint 100⟩],
    migrations := [fun d => setKey d "epochs" (.vint 999)] }

example : normalizePass SPort [] = [("__version", .vint 0), ("port", .vint 0)] := by decide

example : normalizePass SPort (normalizePass SPort []) =
    [("__version", .vint 0), ("port", .vstr "0")] := by decide

example :
    let s0 := configServiceInit STrain
    let s1 := (updateConfig STrain s0 [("batch_size", .vint 16)]).1
    let s2 := (updateConfig STrain s1 [("epochs", .vint 200)]).1
    findVal s2 "batch_size" = some (.vint 16) ∧ findVal s2 "epochs" = some (.vint 200) := by
  decide

example :
    let s0 := configServiceInit SMig
    let s1 := (updateConfig SMig s0 [("__version", .vint 0), ("batch_size", .vint 16)]).1
    findVal s1 "epochs" = some (.vint 999) := by
  decide

/-! ## Lemmas about the serialization engine -/

/-- The field names of a schema, in declaration order. -/
def fieldNames (S : Schema) : List String := S.fields.map FieldSpec.name

/-- A well-formed schema: field names are distinct and none of them is the
reserved `__version` key. -/
def GoodSchema (S : Schema) : Prop :=
  (fieldNames S).Nodup ∧ "__version" ∉ fieldNames S

theorem findVal_map_fields (fs : List FieldSpec) (g : FieldSpec → Value)
    (hn : (fs.map FieldSpec.name).Nodup) :
    ∀ f ∈ fs, findVal (fs.map (fun x => (x.name, g x))) f.name = some (g f) := by
  induction fs with
  | nil => intro f hf; cases hf
  | cons a as ih =>
    have hn1 : a.name ∉ as.map FieldSpec.name := (List.nodup_cons.mp hn).1
    have hn2 : (as.map FieldSpec.name).Nodup := (List.nodup_cons.mp hn).2
    intro f hf
    simp only [List.map_cons, findVal]
    by_cases h : a.name = f.name
    · have hgf : g a = g f := by
        rcases List.mem_cons.mp hf with hfa | hfas
        · rw [hfa]
        · exact absurd (h ▸ List.mem_map_of_mem FieldSpec.name hfas) hn1
      simp [h, hgf]
    · have hf' : f ∈ as := by
        rcases List.mem_cons.mp hf with hfa | hfas
        · exact absurd (hfa ▸ rfl) h
        · exact hfas
      simp [h, ih hn2 f hf']

theorem findValD_map_fields (fs : List FieldSpec) (g : FieldSpec → Value)
    (hn : (fs.map FieldSpec.name).Nodup) (f : FieldSpec) (hf : f ∈ fs) (dflt : Value) :
    findValD (fs.map (fun x => (x.name, g x))) f.name dflt = g f := by
  simp [findValD, findVal_map_fields fs g hn f hf]

theorem findValD_defaultDoc (S : Schema) (hS : GoodSchema S) (f : FieldSpec)
    (hf : f ∈ S.fields) :
    findValD (defaultDoc S) f.name f.default = f.default :=
  findValD_map_fields S.fields FieldSpec.default hS.1 f hf f.default

theorem findVal_toDict (S : Schema) (hS : GoodSchema S) (doc : RawMap) (f : FieldSpec)
    (hf : f ∈ S.fields) :
    findVal (toDict S doc) f.name = some (emitValue (findValD doc f.name f.default)) := by
  have hne : "__version" ≠ f.name := by
    intro h
    exact hS.2 (h ▸ List.mem_map_of_mem FieldSpec.name hf)
  simp only [toDict, findVal, if_neg hne]
  exact findVal_map_fields S.fields (fun x => emitValue (findValD doc x.name x.default)) hS.1 f hf

theorem getVersion_toDict (S : Schema) (doc : RawMap) :
    getVersion (toDict S doc) = (currentVersion S : Int) := by
  simp [getVersion, toDict, findVal]

theorem applyMigs_current (S : Schema) (d : RawMap) :
    applyMigs S (currentVersion S) d = d := by
  simp [applyMigs, currentVersion, List.drop_length]

/-- Coercion stability: a successfully coerced value re-parses from its wire
representation to exactly itself.  This is the algebraic heart of round-trip
idempotence. -/
theorem coerce_emit_stable (ft : FieldType) (nb : Bool) (w x : Value)
    (h : coerceValue ft nb w = some x) :
    coerceValue ft nb (emitValue x) = some x := by
  cases ft <;> cases w <;> cases nb <;>
    simp only [coerceValue, reduceIte, reduceCtorEq, if_true, if_false, ite_true, ite_false] at h <;>
    (try split_ifs at h) <;>
    cases h <;>
    (try (rename_i fv; cases fv)) <;>
    simp_all [coerceValue, emitValue]

/-- The transformation one further load/serialize pass applies to a single
stored field value. -/
def renorm (f : FieldSpec) (x : Value) : Value :=
  match coerceValue f.ftype f.nullable (emitValue x) with
  | some y => y
  | none => f.default

theorem renorm_of_canonical (f : FieldSpec) (x : Value)
    (h : ∃ w, coerceValue f.ftype f.nullable w = some x) : renorm f x = x := by
  obtain ⟨w, hw⟩ := h
  simp [renorm, coerce_emit_stable f.ftype f.nullable w x hw]

/-- A value that is either canonical (the result of a successful coercion)
or the compiled-in default is stabilized by at most one further pass. -/
theorem renorm_renorm (f : FieldSpec) (x : Value)
    (h : (∃ w, coerceValue f.ftype f.nullable w = some x) ∨ x = f.default) :
    renorm f (renorm f x) = renorm f x := by
  rcases h with h | h
  · rw [renorm_of_canonical f x h, renorm_of_canonical f x h]
  · subst h
    cases hc : coerceValue f.ftype f.nullable (emitValue f.default) with
    | none => simp [renorm, hc]
    | some z =>
      have hz : renorm f f.default = z := by simp [renorm, hc]
      rw [hz, renorm_of_canonical f z ⟨emitValue f.default, hc⟩]

theorem loadDoc_toDict (S : Schema) (hS : GoodSchema S) (doc : RawMap) :
    loadDoc S (toDict S doc) =
      S.fields.map (fun f => (f.name, renorm f (findValD doc f.name f.default))) := by
  unfold loadDoc fromDict
  have hm : applyMigs S (getVersion (toDict S doc)).toNat (toDict S doc) = toDict S doc := by
    rw [getVersion_toDict, Int.toNat_natCast, applyMigs_current]
  rw [hm]
  apply List.map_congr_left
  intro f hf
  have hfind := findVal_toDict S hS doc f hf
  simp only [fieldUpdate, hfind]
  cases hc : coerceValue f.ftype f.nullable (emitValue (findValD doc f.name f.default)) with
  | some y => simp [renorm, hc]
  | none => simp [renorm, hc, findValD_defaultDoc S hS f hf]

/-- Every field of a freshly-loaded document is either a canonical coerced
value or the compiled-in default. -/
theorem loadDoc_canonical_or_default (S : Schema) (hS : GoodSchema S) (d : RawMap)
    (f : FieldSpec) (hf : f ∈ S.fields) :
    (∃ w, coerceValue f.ftype f.nullable w = some (findValD (loadDoc S d) f.name f.default)) ∨
      findValD (loadDoc S d) f.name f.default = f.default := by
  unfold loadDoc fromDict
  rw [findValD_map_fields S.fields _ hS.1 f hf]
  cases hv : findVal (applyMigs S (getVersion d).toNat d) f.name with
  | none =>
    right
    simp only [fieldUpdate, hv]
    exact findValD_defaultDoc S hS f hf
  | some w =>
    cases hc : coerceValue f.ftype f.nullable w with
    | some w' =>
      left
      refine ⟨w, ?_⟩
      simp only [fieldUpdate, hv, hc]
    | none =>
      right
      simp only [fieldUpdate, hv, hc]
      exact findValD_defaultDoc S hS f hf

/-- Embeds `toDict` only looks at documents through the per-field values. -/
theorem toDict_congr (S : Schema) (a b : RawMap)
    (h : ∀ f ∈ S.fields, findValD a f.name f.default = findValD b f.name f.default) :
    toDict S a = toDict S b := by
  unfold toDict
  congr 1
  apply List.map_congr_left
  intro f hf
  rw [h f hf]

theorem findVal_setKey_self (d : RawMap) (k : String) (v : Value) :
    findVal (setKey d k v) k = some v := by
  induction d with
  | nil => simp [setKey, findVal]
  | cons a rest ih =>
    obtain ⟨ka, va⟩ := a
    by_cases h : ka = k
    · simp [setKey, findVal, h]
    · simp [setKey, findVal, h, ih]

theorem findVal_setKey_other (d : RawMap) (k k' : String) (v : Value) (h : k' ≠ k) :
    findVal (setKey d k v) k' = findVal d k' := by
  have hne : ¬ k = k' := fun hh => h hh.symm
  induction d with
  | nil =>
    simp only [setKey, findVal]
    rw [if_neg hne]
  | cons a rest ih =>
    obtain ⟨ka, va⟩ := a
    simp only [setKey]
    by_cases hk : ka = k
    · rw [if_pos hk]
      subst hk
      simp only [findVal]
      rw [if_neg hne, if_neg hne]
    · rw [if_neg hk]
      simp only [findVal]
      by_cases hk' : ka = k'
      · rw [if_pos hk', if_pos hk']
      · rw [if_neg hk', if_neg hk', ih]

/-- The migration-free normal form of `update_config` on a payload without
a `__version` key: inject the given version, coerce the supplied fields
onto the current document, and serialize. -/
def updateNoMig (fields : List FieldSpec) (ver : Nat) (s p : RawMap) : RawMap × RawMap :=
  (fields.map (fun f => (f.name, (fieldUpdate s (setKey p "__version" (.vint ver)) f).1)),
   ("__version", .vint ver) ::
     fields.map (fun f => (f.name,
       emitValue (findValD
         (fields.map (fun g => (g.name, (fieldUpdate s (setKey p "__version" (.vint ver)) g).1)))
         f.name f.default))))

theorem getVersion_setKey (d : RawMap) (n : Nat) :
    getVersion (setKey d "__version" (.vint n)) = (n : Int) := by
  simp [getVersion, findVal_setKey_self]

/-- On a payload without `__version`, `update_config` reduces to its
migration-free normal form: the injected current version makes the
migration chain drop to the empty list. -/
theorem updateConfig_eq_noMig (S : Schema) (s p : RawMap)
    (hp : findVal p "__version" = none) :
    updateConfig S s p = updateNoMig S.fields (currentVersion S) s p := by
  simp only [updateConfig, updateNoMig, fromDict, toDict, hp, reduceIte,
    getVersion_setKey, Int.toNat_natCast, applyMigs_current]

/-! ## Claim C1 -/

/-- C1 counterexample input: the single-pass round trip fails on the empty
mapping over `SPort`, the modelled fragment of the schema holding the
documented `CloudSecretsConfig.port` field (declared `str`, default int
`0`): the missing key keeps the raw default `0` after the first load, which
the second load coerces to `"0"`. -/
theorem serialize_load_single_pass_counterexample :
    normalizePass SPort (normalizePass SPort []) ≠ normalizePass SPort [] := by
  decide

/-- C1 (amended): one load/serialize pass is normalizing only from the
second application onward: for every raw mapping `d`,
`serialize(load(serialize(load(serialize(load(d))))))` equals
`serialize(load(serialize(load(d))))`.  Single-pass idempotence fails for
mappings that omit a field whose compiled-in default representation
differs from its coerced form. -/
theorem serialize_load_two_pass_idempotent (S : Schema) (hS : GoodSchema S) (d : RawMap) :
    normalizePass S (normalizePass S (normalizePass S d)) =
      normalizePass S (normalizePass S d) := by
  unfold normalizePass
  apply toDict_congr
  intro f hf
  have h1 : loadDoc S (toDict S (loadDoc S d)) =
      S.fields.map (fun g => (g.name, renorm g (findValD (loadDoc S d) g.name g.default))) :=
    loadDoc_toDict S hS (loadDoc S d)
  have h2 := loadDoc_toDict S hS (loadDoc S (toDict S (loadDoc S d)))
  rw [h2, findValD_map_fields S.fields _ hS.1 f hf, h1,
    findValD_map_fields S.fields _ hS.1 f hf]
  exact renorm_renorm f _ (loadDoc_canonical_or_default S hS d f hf)

/-- Witness for the two-pass idempotence theorem at the concrete schema
`SPort` and the empty mapping. -/
theorem serialize_load_two_pass_idempotent_witness :
    GoodSchema SPort ∧
      normalizePass SPort (normalizePass SPort (normalizePass SPort [])) =
        normalizePass SPort (normalizePass SPort []) :=
  ⟨⟨by decide, by decide⟩,
   serialize_load_two_pass_idempotent SPort ⟨by decide, by decide⟩ []⟩

/-! ## Claim C2 -/

/-- C2 counterexample input: a payload that carries an old `__version` makes
`update_config` run the migration chain, disturbing the `epochs` field even
though the payload never mentions it (modelled migration standing in for the
real chain, cf. config_service.py lines 60-64). -/
theorem update_config_migration_counterexample :
    (findVal ((updateConfig SMig (configServiceInit SMig)
        [("__version", .vint 0), ("batch_size", .vint 16)]).1) "epochs" ≠
      findVal (configServiceInit SMig) "epochs") ∧
    findVal [(("__version" : String), Value.vint 0), ("batch_size", Value.vint 16)] "epochs"
      = none := by
  decide

/-- C2 (amended): for every payload `p` without a `__version` key,
`update_config` injects the current schema version, so the migration chain
is never consulted (the result is unchanged under replacing the migrations
by any list of the same length); it overwrites exactly the coercible fields
present in `p` and every absent field retains its current value; in
particular, starting from defaults, patching `batch_size := 16` and then
`epochs := 200` leaves both values in place. -/
theorem update_config_partial_isolation (S : Schema) (hS : GoodSchema S)
    (s p : RawMap) (hp : findVal p "__version" = none) :
    (∀ ms' : List (RawMap → RawMap), ms'.length = S.migrations.length →
        updateConfig { fields := S.fields, migrations := ms' } s p = updateConfig S s p) ∧
    (∀ f ∈ S.fields, findVal p f.name = none →
        findValD ((updateConfig S s p).1) f.name f.default = findValD s f.name f.default) ∧
    (∀ f ∈ S.fields, ∀ w w', findVal p f.name = some w →
        coerceValue f.ftype f.nullable w = some w' →
        findValD ((updateConfig S s p).1) f.name f.default = w') ∧
    (findVal ((updateConfig STrain
        ((updateConfig STrain (configServiceInit STrain) [("batch_size", .vint 16)]).1)
        [("epochs", .vint 200)]).1) "epochs" = some (.vint 200) ∧
     findVal ((updateConfig STrain
        ((updateConfig STrain (configServiceInit STrain) [("batch_size", .vint 16)]).1)
        [("epochs", .vint 200)]).1) "batch_size" = some (.vint 16)) := by
  have hlook : ∀ f ∈ S.fields, ∀ n : Nat,
      findVal (setKey p "__version" (.vint n)) f.name = findVal p f.name := by
    intro f hf n
    refine findVal_setKey_other p "__version" f.name _ ?_
    intro h
    exact hS.2 (h ▸ List.mem_map_of_mem FieldSpec.name hf)
  refine ⟨?_, ?_, ?_, ?_⟩
  · intro ms' hlen
    rw [updateConfig_eq_noMig { fields := S.fields, migrations := ms' } s p hp,
      updateConfig_eq_noMig S s p hp]
    exact congrArg (fun n => updateNoMig S.fields n s p) hlen
  · intro f hf habs
    rw [updateConfig_eq_noMig S s p hp]
    unfold updateNoMig
    rw [findValD_map_fields S.fields _ hS.1 f hf]
    simp only [fieldUpdate, hlook f hf, habs]
  · intro f hf w w' hw hc
    rw [updateConfig_eq_noMig S s p hp]
    unfold updateNoMig
    rw [findValD_map_fields S.fields _ hS.1 f hf]
    simp only [fieldUpdate, hlook f hf, hw, hc]
  · exact ⟨by decide, by decide⟩

/-- Witness for the partial-update theorem at the concrete `STrain` schema. -/
theorem update_config_partial_isolation_witness :
    (GoodSchema STrain ∧ findVal [(("batch_size" : String), Value.vint 16)] "__version" = none) ∧
      findValD ((updateConfig STrain (configServiceInit STrain)
          [("batch_size", .vint 16)]).1) "epochs" (.vint 100)
        = findValD (configServiceInit STrain) "epochs" (.vint 100) := by
  refine ⟨⟨⟨by decide, by decide⟩, by decide⟩, ?_⟩
  have h := update_config_partial_isolation STrain ⟨by decide, by decide⟩
    (configServiceInit STrain) [("batch_size", .vint 16)] (by decide)
  have h2 := h.2.1 ⟨"epochs", .tInt, false, .vint 100⟩ (by decide) (by decide)
  exact h2

/-! ## Claim C9 -/

/-- C9: `validate_config` never mutates the canonical configuration: the
canonical document (and hence its serialized form) is identical before and
after any validate call, whether validation succeeds or reports errors. -/
theorem validate_config_read_only (S : Schema) (s data : RawMap) :
    (validateConfig S s data).1 = s ∧
      getConfigDict S ((validateConfig S s data).1) = getConfigDict S s :=
  ⟨rfl, rfl⟩

/-! ## TrainerService (`web/backend/services/trainer_service.py`)

The lifecycle controller.  Status strings `"idle" | "running" | "stopping"
| "error"` (trainer_service.py line 91) become the `TStatus` inductive.
WebSocket messages `{"type": t, "data": {"text": s}}` are modelled by their
type tag and text.  The pluggable `_ws_broadcast` callback is modelled by a
flag (`wsSet`) plus the list of messages handed to it, oldest first; the
Python `_broadcast` wrapper suppresses callback exceptions, so handing the
message over never fails.  External side effects (concept flush, trainer
construction, GPU release, TensorBoard subprocess, cloud-secrets copy)
touch only external collaborators and are not part of the controller
state. -/

inductive TStatus where
  | idle
  | running
  | stopping
  | error
deriving DecidableEq, Repr

/-- The f-string rendering used by `"Training is already {status}"`. -/
def statusName : TStatus → String
  | .idle => "idle"
  | .running => "running"
  | .stopping => "stopping"
  | .error => "error"

structure WsMsg where
  ty : String
  text : String
deriving DecidableEq, Repr

/-- The per-run command channel (`TrainCommands`); `deliveryFails` records
whether delivering a command through it raises. -/
structure Channel where
  deliveryFails : Bool
deriving DecidableEq, Repr

/-- The injected trainer (`create.create_trainer` result): whether
`trainer.start()` (setup) and `trainer.train()` (run) raise. -/
structure WorkerBehavior where
  startRaises : Bool
  trainRaises : Bool
deriving DecidableEq, Repr

structure TrainerState where
  status : TStatus
  errorMessage : Option String
  startTime : Option Nat
  hasThread : Bool
  commands : Option Channel
  wsSet : Bool
  broadcasts : List WsMsg
deriving DecidableEq, Repr

/-- The `{"ok": bool, "error": optional str}` results of the lifecycle calls. -/
structure CmdResult where
  ok : Bool
  error : Option String
deriving DecidableEq, Repr

/-- Embeds `TrainerService._broadcast`: forward to the injected callback when set,
swallowing its errors (trainer_service.py lines 108-112). -/
def tsBroadcast (s : TrainerState) (m : WsMsg) : TrainerState :=
  if s.wsSet then { s with broadcasts := s.broadcasts ++ [m] } else s

/-- Embeds `TrainerService._set_status` (trainer_service.py lines 118-121). -/
def tsSetStatus (s : TrainerState) (st : TStatus) (err : Option String) : TrainerState :=
  { s with status := st, errorMessage := err }

/-- Embeds `TrainerService.get_status`: the `{status, error, start_time}` snapshot
(trainer_service.py lines 123-130). -/
def getStatus (s : TrainerState) : TStatus × Option String × Option Nat :=
  (s.status, s.errorMessage, s.startTime)

/-- Embeds `TrainerService.start_training` (trainer_service.py lines 136-214):
reject with a conflict result when the status is `running` or `stopping`;
otherwise flush external artifacts, create the command channel `ch` and
callbacks, set status `running`, announce, and spawn the training thread
(the thread body itself is `trainingThreadFn`, applied separately). -/
def startTraining (s : TrainerState) (ch : Channel) : TrainerState × CmdResult :=
  if s.status = .running ∨ s.status = .stopping then
    (s, { ok := false, error := some ("Training is already " ++ statusName s.status) })
  else
    let s1 := { s with commands := some ch }
    let s2 := tsSetStatus s1 .running none
    let s3 := tsBroadcast s2 { ty := "status", text := "Starting training..." }
    let s4 := { s3 with hasThread := true }
    (s4, { ok := true, error := none })

/-- The try/except part of `TrainerService._training_thread_fn`
(trainer_service.py lines 227-250): run `trainer.start()`; on success
record `start_time`; then run `trainer.train()`; an exception from either
is caught, setting the `error_caught` flag (returned second). -/
def trainingThreadPhase (s : TrainerState) (w : WorkerBehavior) (now : Nat) :
    TrainerState × Bool :=
  if w.startRaises then (s, true)
  else
    let s1 := { s with startTime := some now }
    if w.trainRaises then (s1, true) else (s1, false)

/-- The cleanup part of `TrainerService._training_thread_fn`
(trainer_service.py lines 251-283): clear the thread, command channel and
callbacks; set status `error` with the sanitized message and broadcast a
status-typed error notice when an exception was caught, otherwise set
status `idle` and broadcast "Stopped"; finally clear `start_time`. -/
def trainingThreadCleanup (s : TrainerState) (errorCaught : Bool) : TrainerState :=
  let s1 := { s with hasThread := false, commands := none }
  let s2 :=
    if errorCaught then
      tsBroadcast (tsSetStatus s1 .error (some "Training failed -- check the console for details"))
        { ty := "status", text := "Error: check the console for details" }
    else
      tsBroadcast (tsSetStatus s1 .idle none) { ty := "status", text := "Stopped" }
  { s2 with startTime := none }

/-- The whole training thread body (trainer_service.py lines 220-283): the
exception from `run()` is caught at the thread boundary — the function is
total, the host process never crashes. -/
def trainingThreadFn (s : TrainerState) (w : WorkerBehavior) (now : Nat) : TrainerState :=
  let (s1, errorCaught) := trainingThreadPhase s w now
  trainingThreadCleanup s1 errorCaught

/-- Embeds `TrainerService.stop_training` (trainer_service.py lines 289-304):
conflict unless `running`; otherwise move to `stopping`, announce, and send
the stop command best-effort (delivery failures suppressed). -/
def stopTraining (s : TrainerState) : TrainerState × CmdResult :=
  if s.status ≠ .running then
    (s, { ok := false, error := some "Training is not running" })
  else
    let s1 := { s with status := .stopping, errorMessage := none }
    let s2 := tsBroadcast s1 { ty := "status", text := "Stopping..." }
    (s2, { ok := true, error := none })

/-- Embeds `TrainerService.sample_now` (trainer_service.py lines 306-313):
conflict when no command channel exists; otherwise deliver best-effort
(`suppress(Exception)` around `commands.sample_default()`) and report ok
regardless of delivery failure. -/
def sampleNow (s : TrainerState) : TrainerState × CmdResult :=
  match s.commands with
  | none => (s, { ok := false, error := some "Training is not running" })
  | some _ => (s, { ok := true, error := none })

/-- Embeds `TrainerService.sample_custom` (trainer_service.py lines 315-322). -/
def sampleCustom (s : TrainerState) (_sampleParams : String) : TrainerState × CmdResult :=
  match s.commands with
  | none => (s, { ok := false, error := some "Training is not running" })
  | some _ => (s, { ok := true, error := none })

/-- Embeds `TrainerService.backup_now` (trainer_service.py lines 324-331). -/
def backupNow (s : TrainerState) : TrainerState × CmdResult :=
  match s.commands with
  | none => (s, { ok := false, error := some "Training is not running" })
  | some _ => (s, { ok := true, error := none })

/-- Embeds `TrainerService.save_now` (trainer_service.py lines 333-340). -/
def saveNow (s : TrainerState) : TrainerState × CmdResult :=
  match s.commands with
  | none => (s, { ok := false, error := some "Training is not running" })
  | some _ => (s, { ok := true, error := none })

/-- A concrete state as left by an accepted `start_training` from the
initial state: running, command channel present, broadcast callback
wired. -/
def runningStateExample : TrainerState :=
  { status := .running, errorMessage := none, startTime := none,
    hasThread := true, commands := some { deliveryFails := false },
    wsSet := true, broadcasts := [] }

/-- A concrete state in status `error`, as left by a failed run. -/
def errorStateExample : TrainerState :=
  { status := .error,
    errorMessage := some "Training failed -- check the console for details",
    startTime := none, hasThread := false, commands := none,
    wsSet := true, broadcasts := [] }

/-- Embeds `TrainerService.__init__` (trainer_service.py lines 90-98): idle, no
error, no thread, no command channel, no broadcast callback. -/
def initialTrainerState : TrainerState :=
  { status := .idle, errorMessage := none, startTime := none,
    hasThread := false, commands := none, wsSet := false, broadcasts := [] }

/-! ## Claim C3 -/

/-- C3 counterexample input: a worker whose `run()` raises.  The thread
body does set state `error` as the claim says, but the message pushed to
subscribers is a *status*-typed event carrying the error text — no
`{"type": "error"}` event is ever emitted on this path. -/
theorem training_failure_emits_status_not_error_event :
    ((trainingThreadFn runningStateExample
        { startRaises := false, trainRaises := true } 7).broadcasts.filter
          (fun m => m.ty = "error")) = [] ∧
      (trainingThreadFn runningStateExample
        { startRaises := false, trainRaises := true } 7).status = .error := by
  decide

/-- C3 (amended): if the worker's `run()` raises, the exception is caught
at the thread boundary (the body is a total function — the host process
does not crash), the state becomes `error` with the sanitized message, a
*status*-typed event carrying the error text is pushed to subscribers, and
after the thread exits `status()` reports `startTime = none` and the
command channel is cleared. -/
theorem training_failure_path (s : TrainerState) (w : WorkerBehavior) (now : Nat)
    (hws : s.wsSet = true) (hsr : w.startRaises = false) (htr : w.trainRaises = true) :
    (trainingThreadFn s w now).status = .error ∧
      (trainingThreadFn s w now).errorMessage =
        some "Training failed -- check the console for details" ∧
      (trainingThreadFn s w now).broadcasts =
        s.broadcasts ++ [{ ty := "status", text := "Error: check the console for details" }] ∧
      getStatus (trainingThreadFn s w now) =
        (.error, some "Training failed -- check the console for details", none) ∧
      (trainingThreadFn s w now).commands = none ∧
      (trainingThreadFn s w now).hasThread = false := by
  simp [trainingThreadFn, trainingThreadPhase, trainingThreadCleanup,
    tsBroadcast, tsSetStatus, getStatus, hws, hsr, htr]

/-- Witness for the failure path at a concrete running state. -/
theorem training_failure_path_witness :
    runningStateExample.wsSet = true ∧
      (trainingThreadFn runningStateExample { startRaises := false, trainRaises := true } 0).status
        = .error :=
  ⟨rfl, (training_failure_path runningStateExample
    { startRaises := false, trainRaises := true } 0 rfl rfl rfl).1⟩

/-! ## Claim C4 -/

/-- C4 counterexample input: the state `error`.  `start_training` only
rejects from `running` and `stopping`, so in state `error` — which is not
`idle` — it accepts and spawns the thread, contradicting "start() is only
accepted from state Idle". -/
theorem start_accepted_in_error_state :
    (startTraining errorStateExample { deliveryFails := false }).2.ok = true ∧
      errorStateExample.status ≠ .idle ∧
      (startTraining errorStateExample { deliveryFails := false }).1.hasThread = true := by
  decide

/-- C4 (amended): `start()` is accepted exactly from `idle` and `error`;
called while `running` or `stopping` it returns a conflict result and
leaves the state untouched (in particular no second worker thread is
spawned); `stop()` is only accepted from `running`: in any other state it
returns a conflict result and the state is left unchanged. -/
theorem lifecycle_command_gating (s : TrainerState) (ch : Channel) :
    ((s.status = .running ∨ s.status = .stopping) →
        startTraining s ch =
          (s, { ok := false, error := some ("Training is already " ++ statusName s.status) })) ∧
      ((s.status = .idle ∨ s.status = .error) → (startTraining s ch).2.ok = true) ∧
      (s.status ≠ .running →
        stopTraining s = (s, { ok := false, error := some "Training is not running" })) := by
  refine ⟨?_, ?_, ?_⟩
  · intro h
    simp [startTraining, h]
  · intro h
    rcases h with h | h <;> simp [startTraining, h]
  · intro h
    simp [stopTraining, h]

/-- Witness for the gating theorem: `stop()` from the freshly-constructed
idle state is a conflict and leaves the state unchanged. -/
theorem lifecycle_command_gating_witness :
    stopTraining initialTrainerState =
      (initialTrainerState, { ok := false, error := some "Training is not running" }) :=
  (lifecycle_command_gating initialTrainerState { deliveryFails := false }).2.2 (by decide)

/-! ## Claim C5 -/

/-- C5 counterexample input: an accepted `start()` from idle.  The status
is already `running` when `start_training` returns — before the worker
thread has run at all (there is no `starting` status in the service). -/
theorem start_sets_running_before_worker_begins :
    (startTraining initialTrainerState { deliveryFails := false }).1.status = .running ∧
      (startTraining initialTrainerState { deliveryFails := false }).1.startTime = none := by
  decide

/-- C5 (amended): an accepted `start()` sets the state directly to
`running` (there is no intermediate `starting` state) and returns
immediately, before the worker thread begins; `startTime`, however, is
recorded in the worker thread only after the worker's setup
(`trainer.start()`) completes successfully — if setup raises, `startTime`
is never set. -/
theorem start_and_setup_timing (s : TrainerState) (ch : Channel) (w : WorkerBehavior)
    (now : Nat) (h : s.status = .idle ∨ s.status = .error) :
    (startTraining s ch).2.ok = true ∧
      (startTraining s ch).1.status = .running ∧
      (startTraining s ch).1.startTime = s.startTime ∧
      (w.startRaises = true →
        (trainingThreadPhase (startTraining s ch).1 w now).1.startTime = s.startTime) ∧
      (w.startRaises = false →
        (trainingThreadPhase (startTraining s ch).1 w now).1.startTime = some now) := by
  have hns : ¬ (s.status = .running ∨ s.status = .stopping) := by
    rcases h with h | h <;> simp [h]
  refine ⟨?_, ?_, ?_, ?_, ?_⟩
  · simp [startTraining, hns]
  · by_cases hw : s.wsSet <;>
      simp [startTraining, hns, tsSetStatus, tsBroadcast, hw]
  · by_cases hw : s.wsSet <;>
      simp [startTraining, hns, tsSetStatus, tsBroadcast, hw]
  · intro hr
    by_cases hw : s.wsSet <;> by_cases ht : w.trainRaises <;>
      simp [startTraining, trainingThreadPhase, hns, tsSetStatus, tsBroadcast, hw, hr, ht]
  · intro hr
    by_cases hw : s.wsSet <;> by_cases ht : w.trainRaises <;>
      simp [startTraining, trainingThreadPhase, hns, tsSetStatus, tsBroadcast, hw, hr, ht]

/-- Witness for the start/setup timing theorem at the initial state. -/
theorem start_and_setup_timing_witness :
    (initialTrainerState.status = .idle ∨ initialTrainerState.status = .error) ∧
      (trainingThreadPhase
          (startTraining initialTrainerState { deliveryFails := false }).1
          { startRaises := false, trainRaises := false } 42).1.startTime = some 42 :=
  ⟨Or.inl rfl,
   (start_and_setup_timing initialTrainerState { deliveryFails := false }
      { startRaises := false, trainRaises := false } 42 (Or.inl rfl)).2.2.2.2 rfl⟩

/-! ## Claim C8 -/

/-- C8: `sample_now`, `sample_custom`, `backup_now` and `save_now` return a
conflict result (never an exception) when no command channel exists, and
when a channel exists — even one whose delivery raises — they swallow the
failure and return an ok result; all four are total functions, so none of
them ever throws. -/
theorem fire_and_forget_commands (s : TrainerState) (ps : String) :
    (s.commands = none →
        sampleNow s = (s, { ok := false, error := some "Training is not running" }) ∧
        sampleCustom s ps = (s, { ok := false, error := some "Training is not running" }) ∧
        backupNow s = (s, { ok := false, error := some "Training is not running" }) ∧
        saveNow s = (s, { ok := false, error := some "Training is not running" })) ∧
      (∀ ch : Channel, s.commands = some ch →
        (sampleNow s).2 = { ok := true, error := none } ∧
        (sampleCustom s ps).2 = { ok := true, error := none } ∧
        (backupNow s).2 = { ok := true, error := none } ∧
        (saveNow s).2 = { ok := true, error := none }) := by
  refine ⟨?_, ?_⟩
  · intro h
    simp [sampleNow, sampleCustom, backupNow, saveNow, h]
  · intro ch h
    simp [sampleNow, sampleCustom, backupNow, saveNow, h]

/-- Witness: conflict with no channel (fresh state), ok with a channel
whose delivery raises. -/
theorem fire_and_forget_commands_witness :
    (sampleNow initialTrainerState).2.ok = false ∧
      (sampleNow { runningStateExample with
        commands := some { deliveryFails := true } }).2.ok = true := by
  have h1 := (fire_and_forget_commands initialTrainerState "p").1 rfl
  have h2 := (fire_and_forget_commands { runningStateExample with
    commands := some { deliveryFails := true } } "p").2 { deliveryFails := true } rfl
  rw [h1.1, h2.1]
  exact ⟨rfl, rfl⟩

/-! ## ConnectionManager (`web/backend/ws/training_ws.py` lines 32-83 and
`web/backend/ws/connection_manager.py` lines 10-47)

A subscriber is a connected WebSocket; `failing` records whether
`send_json` raises for it.  `broadcast` iterates the connection list in
order, trying to send to each client; clients whose send raises are
collected in `stale` and removed (first occurrence each, `list.remove`
semantics with `ValueError` suppressed) only after the loop has visited
every client. -/

structure Sub where
  id : Nat
  failing : Bool
deriving DecidableEq, Repr

structure CMState where
  connections : List Sub
deriving DecidableEq, Repr

/-- Embeds `ConnectionManager.active_count`. -/
def cmActiveCount (st : CMState) : Nat := st.connections.length

/-- Embeds `ConnectionManager.connect` (after `websocket.accept()`): append. -/
def cmConnect (st : CMState) (w : Sub) : CMState :=
  { connections := st.connections ++ [w] }

/-- Embeds `ConnectionManager.disconnect`: remove first occurrence if present
(`suppress(ValueError)` around `list.remove`). -/
def cmDisconnect (st : CMState) (w : Sub) : CMState :=
  { connections := st.connections.erase w }

/-- Embeds `ConnectionManager.broadcast`: first component is the connection list
after pruning, second the list of (subscriber id, message) deliveries that
succeeded during the fan-out.  Deliveries are attempted for every client of
the *original* list (the loop never aborts on a failure); the stale clients
are erased one by one only after the loop. -/
def cmBroadcast (st : CMState) (msg : WsMsg) : CMState × List (Nat × WsMsg) :=
  ({ connections :=
      (st.connections.filter (fun w => w.failing)).foldl
        (fun cs w => cs.erase w) st.connections },
   (st.connections.filter (fun w => !w.failing)).map (fun w => (w.id, msg)))

theorem foldl_erase_cons_of_not_mem (stale : List Sub) (x : Sub)
    (hx : x.failing = false) (hstale : ∀ s ∈ stale, s.failing = true) :
    ∀ l : List Sub,
      stale.foldl (fun cs w => cs.erase w) (x :: l) =
        x :: stale.foldl (fun cs w => cs.erase w) l := by
  induction stale with
  | nil => intro l; rfl
  | cons a as ih =>
    intro l
    have ha : a.failing = true := hstale a (List.mem_cons_self a as)
    have hxa : (x == a) = false := by
      apply beq_false_of_ne
      intro h
      rw [h, ha] at hx
      cases hx
    have h1 : (x :: l).erase a = x :: l.erase a := by
      rw [List.erase_cons, if_neg (by simp_all)]
    simp only [List.foldl_cons, h1]
    exact ih (fun s hs => hstale s (List.mem_cons_of_mem a hs)) (l.erase a)

/-- Erasing each stale (failing) client after the fan-out leaves exactly
the non-failing clients, in order. -/
theorem foldl_erase_filter (l : List Sub) :
    (l.filter (fun w => w.failing)).foldl (fun cs w => cs.erase w) l =
      l.filter (fun w => !w.failing) := by
  induction l with
  | nil => rfl
  | cons x xs ih =>
    by_cases hx : x.failing
    · have hfil : (x :: xs).filter (fun w => w.failing) =
          x :: xs.filter (fun w => w.failing) := by
        simp [List.filter_cons, hx]
      have herase : (x :: xs).erase x = xs := by
        simp [List.erase_cons]
      rw [hfil]
      simp only [List.foldl_cons, herase]
      rw [ih]
      simp [List.filter_cons, hx]
    · have hx' : x.failing = false := by simp_all
      have hfil : (x :: xs).filter (fun w => w.failing) =
          xs.filter (fun w => w.failing) := by
        simp [List.filter_cons, hx']
      rw [hfil,
        foldl_erase_cons_of_not_mem (xs.filter (fun w => w.failing)) x hx'
          (fun s hs => (List.mem_filter.mp hs).2) xs,
        ih]
      simp [List.filter_cons, hx']

/-! ## Claim C6 -/

/-- C6: `broadcast` attempts delivery to every registered subscriber even
when some deliveries fail — a subscriber listed after a failing one still
receives the event; every subscriber whose delivery raises is removed from
the registry only after the full fan-out, and is therefore absent from the
connection list (and uncounted by `active_count`) afterwards.  The
function is total: the failure never surfaces to `broadcast`'s caller. -/
theorem broadcast_attempts_all_then_prunes (st : CMState) (msg : WsMsg) :
    (∀ w ∈ st.connections, w.failing = false → (w.id, msg) ∈ (cmBroadcast st msg).2) ∧
      (cmBroadcast st msg).1.connections = st.connections.filter (fun w => !w.failing) ∧
      (∀ w ∈ st.connections, w.failing = true → w ∉ (cmBroadcast st msg).1.connections) ∧
      cmActiveCount (cmBroadcast st msg).1 =
        (st.connections.filter (fun w => !w.failing)).length := by
  have hconn : (cmBroadcast st msg).1.connections =
      st.connections.filter (fun w => !w.failing) := by
    simp only [cmBroadcast]
    exact foldl_erase_filter st.connections
  refine ⟨?_, hconn, ?_, ?_⟩
  · intro w hw hok
    simp only [cmBroadcast]
    exact List.mem_map_of_mem _ (List.mem_filter.mpr ⟨hw, by simp [hok]⟩)
  · intro w hw hfail
    rw [hconn]
    intro hmem
    have := (List.mem_filter.mp hmem).2
    rw [hfail] at this
    cases this
  · rw [cmActiveCount, hconn]

/-- Witness: with a failing subscriber ahead of a healthy one, the healthy
one is still delivered to and the failing one is pruned. -/
theorem broadcast_attempts_all_then_prunes_witness :
    ((2 : Nat), ({ ty := "status", text := "hi" } : WsMsg)) ∈
        (cmBroadcast { connections := [{ id := 1, failing := true }, { id := 2, failing := false }] }
          { ty := "status", text := "hi" }).2 ∧
      ({ id := 1, failing := true } : Sub) ∉
        (cmBroadcast { connections := [{ id := 1, failing := true }, { id := 2, failing := false }] }
          { ty := "status", text := "hi" }).1.connections := by
  have h := broadcast_attempts_all_then_prunes
    { connections := [{ id := 1, failing := true }, { id := 2, failing := false }] }
    { ty := "status", text := "hi" }
  exact ⟨h.1 { id := 2, failing := false } (by decide) rfl,
         h.2.2.1 { id := 1, failing := true } (by decide) rfl⟩

/-! ## BroadcastBridge (`web/backend/ws/connection_manager.py` lines 50-77
and the module-level twin in `web/backend/ws/training_ws.py` lines 94-149) -/

/-- The asyncio event loop, seen through the only property the bridge
reads: whether it is running. -/
structure Loop where
  isRunning : Bool
deriving DecidableEq, Repr

structure BridgeState where
  manager : CMState
  loopRef : Option Loop
  scheduled : List WsMsg
deriving DecidableEq, Repr

/-- Embeds `BroadcastBridge.capture_event_loop`: store the currently running loop
(if any) when no reference is held yet; a missing running loop logs a
warning and leaves the reference unset. -/
def captureEventLoop (st : BridgeState) (runningLoop : Option Loop) : BridgeState :=
  if st.loopRef = none then { st with loopRef := runningLoop } else st

/-- Embeds `BroadcastBridge.broadcast_sync` / `training_ws.broadcast_sync`:
return immediately when there are no subscribers; otherwise schedule the
broadcast coroutine on the captured loop when it is present and running
(`scheduled` records each `run_coroutine_threadsafe` hand-off, whose
completion hook only logs), and silently drop the message otherwise. -/
def broadcastSync (st : BridgeState) (msg : WsMsg) : BridgeState :=
  if cmActiveCount st.manager = 0 then st
  else
    match st.loopRef with
    | some loop =>
        if loop.isRunning then { st with scheduled := st.scheduled ++ [msg] } else st
    | none => st

/-! ## Claim C7 -/

/-- C7: `broadcast_sync` called with zero subscribers returns immediately
and schedules nothing on the event loop — the state, including the list of
scheduled cross-thread hand-offs, is untouched. -/
theorem broadcast_sync_no_subscriber_noop (st : BridgeState) (msg : WsMsg)
    (h : cmActiveCount st.manager = 0) :
    broadcastSync st msg = st ∧ (broadcastSync st msg).scheduled = st.scheduled := by
  constructor <;> simp [broadcastSync, h]

/-- Witness: an empty registry with a live captured loop. -/
theorem broadcast_sync_no_subscriber_noop_witness :
    broadcastSync
        { manager := { connections := [] }, loopRef := some { isRunning := true },
          scheduled := [] }
        { ty := "progress", text := "p" } =
      { manager := { connections := [] }, loopRef := some { isRunning := true },
        scheduled := [] } :=
  (broadcast_sync_no_subscriber_noop
    { manager := { connections := [] }, loopRef := some { isRunning := true },
      scheduled := [] }
    { ty := "progress", text := "p" } rfl).1

/-! ## SingletonMixin (`web/backend/services/_singleton.py`)

Classes are identified by numbers; object identities likewise.  Each
subclass gets its own `_instance` slot, reset to empty at subclass creation
(`__init_subclass__`), so the registry starts with no binding for a class
until its first `get_instance` call, which constructs a fresh object (a
previously unused identity, modelled by a monotone counter) and stores it;
every later call returns the stored object.  The double-checked locking
serializes the calls, so the sequential semantics below is the observable
behavior. -/

structure SingletonRegistry where
  slots : List (Nat × Nat)
  counter : Nat
deriving DecidableEq, Repr

def lookupSlot : List (Nat × Nat) → Nat → Option Nat
  | [], _ => none
  | (c, i) :: rest, cls => if c = cls then some i else lookupSlot rest cls

/-- Embeds `SingletonMixin.get_instance` (lines 13-19): return the stored
instance, constructing and storing a fresh one on the first call for that
class. -/
def getInstance (cls : Nat) (r : SingletonRegistry) : SingletonRegistry × Nat :=
  match lookupSlot r.slots cls with
  | some i => (r, i)
  | none => ({ slots := (cls, r.counter) :: r.slots, counter := r.counter + 1 }, r.counter)

/-- A sequence of `get_instance` calls on arbitrary classes. -/
def runCalls (calls : List Nat) (r : SingletonRegistry) : SingletonRegistry :=
  calls.foldl (fun acc c => (getInstance c acc).1) r

/-- Registry sanity: every stored identity came from the counter (so is
below it) and no identity is stored twice. -/
def RegistryWF (r : SingletonRegistry) : Prop :=
  (∀ p ∈ r.slots, p.2 < r.counter) ∧ (r.slots.map Prod.snd).Nodup

/-- The empty registry (the state of a slot right after
`__init_subclass__` reset every class's `_instance` to `None`). -/
def emptyRegistry : SingletonRegistry := { slots := [], counter := 0 }

theorem getInstance_eq_of_some (cls i : Nat) (r : SingletonRegistry)
    (h : lookupSlot r.slots cls = some i) : getInstance cls r = (r, i) := by
  unfold getInstance
  rw [h]

theorem getInstance_eq_of_none (cls : Nat) (r : SingletonRegistry)
    (h : lookupSlot r.slots cls = none) :
    getInstance cls r =
      ({ slots := (cls, r.counter) :: r.slots, counter := r.counter + 1 }, r.counter) := by
  unfold getInstance
  rw [h]

theorem lookupSlot_mem (l : List (Nat × Nat)) (a x : Nat)
    (h : lookupSlot l a = some x) : (a, x) ∈ l := by
  induction l with
  | nil => cases h
  | cons p rest ih =>
    obtain ⟨c, i⟩ := p
    by_cases hc : c = a
    · subst hc
      simp only [lookupSlot, if_pos rfl] at h
      cases h
      exact List.mem_cons_self _ _
    · simp only [lookupSlot, if_neg hc] at h
      exact List.mem_cons_of_mem _ (ih h)

theorem lookupSlot_mem_snd (l : List (Nat × Nat)) (a x : Nat)
    (h : lookupSlot l a = some x) : x ∈ l.map Prod.snd := by
  induction l with
  | nil => cases h
  | cons p rest ih =>
    obtain ⟨c, i⟩ := p
    by_cases hc : c = a
    · simp only [lookupSlot, if_pos hc] at h
      cases h
      simp
    · simp only [lookupSlot, if_neg hc] at h
      simp [ih h]

theorem lookupSlot_persists (cls i : Nat) (r : SingletonRegistry)
    (h : lookupSlot r.slots cls = some i) (c : Nat) :
    lookupSlot (getInstance c r).1.slots cls = some i := by
  unfold getInstance
  cases hc : lookupSlot r.slots c with
  | some j => exact h
  | none =>
    have hne : ¬ c = cls := by
      intro he
      rw [he, h] at hc
      cases hc
    simp only [lookupSlot, if_neg hne]
    exact h

theorem lookupSlot_persists_calls (cls i : Nat) (calls : List Nat) :
    ∀ r : SingletonRegistry, lookupSlot r.slots cls = some i →
      lookupSlot (runCalls calls r).slots cls = some i := by
  induction calls with
  | nil => intro r h; exact h
  | cons c cs ih =>
    intro r h
    exact ih (getInstance c r).1 (lookupSlot_persists cls i r h c)

theorem lookupSlot_after_getInstance (cls : Nat) (r : SingletonRegistry) :
    lookupSlot (getInstance cls r).1.slots cls = some (getInstance cls r).2 := by
  unfold getInstance
  cases hc : lookupSlot r.slots cls with
  | some i => exact hc
  | none => simp [lookupSlot]

theorem lookupSlot_ne_of_nodup (l : List (Nat × Nat)) (a b x y : Nat)
    (hn : (l.map Prod.snd).Nodup) (hab : a ≠ b)
    (ha : lookupSlot l a = some x) (hb : lookupSlot l b = some y) : x ≠ y := by
  induction l with
  | nil => cases ha
  | cons p rest ih =>
    obtain ⟨c, i⟩ := p
    have hn1 : i ∉ rest.map Prod.snd := (List.nodup_cons.mp hn).1
    have hn2 : (rest.map Prod.snd).Nodup := (List.nodup_cons.mp hn).2
    by_cases hca : c = a
    · simp only [lookupSlot, if_pos hca] at ha
      cases ha
      have hcb : ¬ c = b := fun he => hab (hca ▸ he ▸ rfl)
      simp only [lookupSlot, if_neg hcb] at hb
      intro he
      exact hn1 (he ▸ lookupSlot_mem_snd rest b y hb)
    · simp only [lookupSlot, if_neg hca] at ha
      by_cases hcb : c = b
      · simp only [lookupSlot, if_pos hcb] at hb
        cases hb
        intro he
        exact hn1 (he ▸ lookupSlot_mem_snd rest a x ha)
      · simp only [lookupSlot, if_neg hcb] at hb
        exact ih hn2 ha hb

/-! ## Claim C10 -/

/-- C10: on every class, any two `get_instance` calls return the same
object — the second call returns the first call's instance even after
arbitrarily many interleaved `get_instance` calls on other classes — and
two distinct classes never share an instance: each class has its own slot
(reset at subclass creation) and the newly constructed objects are
distinct. -/
theorem singleton_get_instance (r : SingletonRegistry) (hr : RegistryWF r)
    (cls cls' : Nat) (calls : List Nat) :
    (getInstance cls (runCalls calls (getInstance cls r).1)).2 = (getInstance cls r).2 ∧
      (cls ≠ cls' → (getInstance cls' (getInstance cls r).1).2 ≠ (getInstance cls r).2) := by
  constructor
  · have h1 := lookupSlot_after_getInstance cls r
    have h2 := lookupSlot_persists_calls cls (getInstance cls r).2 calls (getInstance cls r).1 h1
    rw [getInstance_eq_of_some cls ((getInstance cls r).2)
      (runCalls calls (getInstance cls r).1) h2]
  · intro hne
    cases hc : lookupSlot r.slots cls with
    | some i =>
      rw [getInstance_eq_of_some cls i r hc]
      show (getInstance cls' r).2 ≠ i
      cases hc' : lookupSlot r.slots cls' with
      | some j =>
        rw [getInstance_eq_of_some cls' j r hc']
        show j ≠ i
        exact lookupSlot_ne_of_nodup r.slots cls' cls j i hr.2 (fun he => hne he.symm) hc' hc
      | none =>
        rw [getInstance_eq_of_none cls' r hc']
        show r.counter ≠ i
        intro he
        have hlt := hr.1 (cls, i) (lookupSlot_mem r.slots cls i hc)
        rw [← he] at hlt
        exact lt_irrefl _ hlt
    | none =>
      rw [getInstance_eq_of_none cls r hc]
      show (getInstance cls'
        { slots := (cls, r.counter) :: r.slots, counter := r.counter + 1 }).2 ≠ r.counter
      have hlook : lookupSlot ((cls, r.counter) :: r.slots) cls' = lookupSlot r.slots cls' := by
        simp only [lookupSlot, if_neg hne]
      cases hc' : lookupSlot r.slots cls' with
      | some j =>
        rw [getInstance_eq_of_some cls' j
          { slots := (cls, r.counter) :: r.slots, counter := r.counter + 1 }
          (by show lookupSlot ((cls, r.counter) :: r.slots) cls' = some j
              rw [hlook, hc'])]
        show j ≠ r.counter
        intro he
        obtain ⟨p, hp, hpj⟩ := List.mem_map.mp (lookupSlot_mem_snd r.slots cls' j hc')
        have hlt := hr.1 p hp
        rw [hpj, he] at hlt
        exact lt_irrefl _ hlt
      | none =>
        rw [getInstance_eq_of_none cls'
          { slots := (cls, r.counter) :: r.slots, counter := r.counter + 1 }
          (by show lookupSlot ((cls, r.counter) :: r.slots) cls' = none
              rw [hlook, hc'])]
        show r.counter + 1 ≠ r.counter
        exact Nat.succ_ne_self r.counter

/-- Witness: starting from the empty registry, repeated calls on class 1
(with a call on class 2 in between) agree, and class 2's instance differs
from class 1's. -/
theorem singleton_get_instance_witness :
    (getInstance 1 (runCalls [2] (getInstance 1 emptyRegistry).1)).2 =
        (getInstance 1 emptyRegistry).2 ∧
      (getInstance 2 (getInstance 1 emptyRegistry).1).2 ≠ (getInstance 1 emptyRegistry).2 := by
  have h := singleton_get_instance emptyRegistry
    ⟨fun p hp => absurd hp (List.not_mem_nil p), List.nodup_nil⟩ 1 2 [2]
  exact ⟨h.1, h.2 (by decide)⟩

end OneTrainerWeb
